import Mathlib

/-
Verification of the EdgeSplit edge bucket-assignment engine.

This file gives a shallow embedding, in Lean 4, of the core routing and
sampling code of the EdgeSplit A/B testing repository, and proves (or
refutes) the behavioural properties stated in its design document.

The embedded source is:
  - src/workers/template.ts  (the static worker: fetch handler, assignBucket,
    gammaSample, normalSample, betaSample, chooseBucketTS, getTargetUrl,
    getBucket), and
  - the worker code emitted by generateWorkerCode in src/lib/sync.ts, which
    differs from the template in one place: it checks an exploration floor
    (totalViews >= variantKeys.length * 100) before using Thompson Sampling.

Modelling conventions:
  - JavaScript numbers are modelled by the rationals where the code only
    adds, multiplies, divides and compares them (every IEEE double is a
    rational), and by the reals where transcendental functions appear
    (normalSample).  A JS value that is non-finite (Infinity or NaN) is
    modelled by the value none of an Option type.
  - Math.random() draws are an explicit sequence of values, passed in as a
    function from a draw index; the code under study is deterministic in
    that sequence.
  - The composite random draw produced by betaSample inside the Thompson
    Sampling loop is abstracted as an oracle
    sampler : iteration index -> alpha -> beta -> value; the loop passes it
    exactly the alpha and beta the source computes.  The iteration index
    models the freshness of the underlying uniform draws.
  - KV lookups and the stats object are modelled by total functions; the
    source defaults every missing key to 0 (the test expression
    stats.views[k] || 0), which the total function realises directly.
-/

namespace EdgeSplit

/-- A variant of a test: positional id (variant1, variant2, ...), its static
traffic percentage and its redirect target URL.  Mirrors the variant records
of the Test type consumed by the workers. -/
structure Variant where
  id : String
  percentage : ℚ
  url : String
deriving DecidableEq

/-- The test configuration the worker reads from KV under test:{id}.  Only
the fields the embedded code touches are modelled. -/
structure TestConfig where
  id : String
  entryPath : String
  controlUrl : String
  controlPercentage : ℚ
  variants : List Variant
  autoOptimize : Bool
deriving DecidableEq

/-- Per-test statistics as assembled by loadStats: views and conversions per
bucket key.  Total functions model the default in the source of 0 for a missing
key (stats.views[k] || 0; KV strings are parsed with parseInt and default to
0 when absent). -/
structure Stats where
  views : String → ℤ
  conversions : String → ℤ

/-- The for-loop of assignBucket (src/workers/template.ts lines 104-109):
walks the variants accumulating percentages into cumulativePercentage and
returns the first variant id whose cumulative bound exceeds the roll;
falls through to "control". -/
def assignLoop (roll : ℚ) : ℚ → List Variant → String
  | _, [] => "control"
  | cum, v :: rest =>
    let cum' := cum + v.percentage
    if roll < cum' then v.id else assignLoop roll cum' rest

/-- assignBucket (src/workers/template.ts lines 95-112): static weighted
selection.  The uniform draw u stands for Math.random(), so roll = u * 100. -/
def assignBucket (u : ℚ) (cfg : TestConfig) : String :=
  let roll := u * 100
  if roll < cfg.controlPercentage then "control"
  else assignLoop roll cfg.controlPercentage cfg.variants

/-- The alpha parameter chooseBucketTS computes for a bucket key:
conversions + 1. -/
def bucketAlpha (stats : Stats) (k : String) : ℤ :=
  stats.conversions k + 1

/-- The beta parameter chooseBucketTS computes for a bucket key:
(views - conversions) + 1. -/
def bucketBeta (stats : Stats) (k : String) : ℤ :=
  (stats.views k - stats.conversions k) + 1

/-- The for-loop of chooseBucketTS (src/workers/template.ts lines 199-214):
carries (best, bestScore), draws one beta sample per key via the sampler
oracle and keeps the key whenever its sample is strictly greater than the
best score so far.  The natural-number argument is the iteration index fed
to the oracle. -/
def tsLoop (sampler : ℕ → ℤ → ℤ → ℚ) (stats : Stats) :
    List String → ℕ → String → ℚ → String
  | [], _, best, _ => best
  | k :: rest, i, best, bestScore =>
    let sample := sampler i (bucketAlpha stats k) (bucketBeta stats k)
    if bestScore < sample then tsLoop sampler stats rest (i + 1) k sample
    else tsLoop sampler stats rest (i + 1) best bestScore

/-- chooseBucketTS (src/workers/template.ts lines 195-217): Thompson
Sampling selection over the given bucket keys, starting from
best = "control" and bestScore = -1. -/
def chooseBucketTS (sampler : ℕ → ℤ → ℤ → ℚ) (stats : Stats)
    (variantKeys : List String) : String :=
  tsLoop sampler stats variantKeys 0 "control" (-1)

/-- The bucket key list both workers build before selection:
["control", ...testConfig.variants.map(v => v.id)]. -/
def workerVariantKeys (cfg : TestConfig) : List String :=
  "control" :: cfg.variants.map (fun v => v.id)

/-- The bucket-selection step of the static worker template
(src/workers/template.ts lines 62-72): when autoOptimize is true it calls
chooseBucketTS directly — there is no exploration-floor check in this file —
and otherwise it calls assignBucket. -/
def selectBucket (cfg : TestConfig) (stats : Stats) (u : ℚ)
    (sampler : ℕ → ℤ → ℤ → ℚ) : String :=
  if cfg.autoOptimize then chooseBucketTS sampler stats (workerVariantKeys cfg)
  else assignBucket u cfg

/-- Sum of views over the bucket keys, as computed in the generated worker:
variantKeys.reduce((sum, key) => sum + (stats.views[key] || 0), 0). -/
def totalViewsOf (stats : Stats) (keys : List String) : ℤ :=
  (keys.map (fun k => stats.views k)).sum

/-- The bucket-selection step of the worker emitted by generateWorkerCode
(src/lib/sync.ts lines 323-342): when autoOptimize is true it computes
totalViews and minViewsRequired = variantKeys.length * 100, uses
chooseBucketTS only when totalViews >= minViewsRequired, and falls back to
assignBucket otherwise. -/
def selectBucketGen (cfg : TestConfig) (stats : Stats) (u : ℚ)
    (sampler : ℕ → ℤ → ℤ → ℚ) : String :=
  if cfg.autoOptimize then
    let variantKeys := workerVariantKeys cfg
    let totalViews := totalViewsOf stats variantKeys
    let minViewsRequired : ℤ := (variantKeys.length : ℤ) * 100
    if minViewsRequired ≤ totalViews then chooseBucketTS sampler stats variantKeys
    else assignBucket u cfg
  else assignBucket u cfg

/-- getTargetUrl (src/workers/template.ts lines 222-229): "control" maps to
controlUrl, a known variant id to its url, anything else falls back to
controlUrl. -/
def getTargetUrl (bucket : String) (cfg : TestConfig) : String :=
  if bucket = "control" then cfg.controlUrl
  else
    match cfg.variants.find? (fun v => v.id == bucket) with
    | some v => v.url
    | none => cfg.controlUrl

/-- Character-list scan realising the regular expression {testId}=([^;]+)
used by getBucket: at each position, if the literal pattern testId= starts
here and is followed by at least one character other than a semicolon, the
match succeeds and the captured group is the maximal run of non-semicolon
characters; otherwise the scan moves one character to the right, exactly as
the regex engine does.  (Test ids are slugified, so they contain no regex
metacharacters.) -/
def cookieScan (pat : List Char) : List Char → Option String
  | [] => none
  | c :: rest =>
    if pat.isPrefixOf (c :: rest) then
      let value := ((c :: rest).drop pat.length).takeWhile (fun ch => ch ≠ ';')
      if value = [] then cookieScan pat rest
      else some (String.mk value)
    else cookieScan pat rest

/-- getBucket (src/workers/template.ts lines 234-238): first match of the
pattern {testId}=([^;]+) anywhere in the Cookie header, returning the
captured group, or none when the pattern matches nowhere. -/
def getBucket (cookie testId : String) : Option String :=
  cookieScan (testId.data ++ ['=']) cookie.data

/-- The Set-Cookie value built for a fresh assignment
(src/workers/template.ts line 78). -/
def cookieValue (testId bucket : String) : String :=
  testId ++ "=" ++ bucket ++ "; Path=/; Max-Age=2592000; HttpOnly; Secure; SameSite=Lax"

/-- One entry of the tests_index object in KV: maps an entry path to the id
of the test registered for it. -/
structure IndexEntry where
  id : String
  entryPath : String
deriving DecidableEq

/-- JavaScript String.startsWith, realised on the underlying character
lists. -/
def strStartsWith (s pre : String) : Bool :=
  pre.data.isPrefixOf s.data

/-- The test-resolution expression of the fetch handler
(src/workers/template.ts lines 32-35):
testsIndex[path] || Object.values(testsIndex).find(e => path.startsWith(e.entryPath)).
The index is modelled as its insertion-ordered key/value pairs (JS object
iteration order for string keys); property access is the first pair whose
key equals the path, and the fallback is the first entry, in index order,
whose entryPath is a prefix of the path. -/
def findTestEntry (index : List (String × IndexEntry)) (path : String) :
    Option IndexEntry :=
  match index.find? (fun p => p.1 == path) with
  | some p => some p.2
  | none => (index.map Prod.snd).find? (fun e => strStartsWith path e.entryPath)

/-- The observable outcome of one run of the fetch handler: HTTP status, the
bucket the user was resolved to (none on 404), the Set-Cookie header value
if one was set, and the redirect target. -/
structure HandlerResult where
  status : ℕ
  bucket : Option String
  setCookie : Option String
  location : Option String
deriving DecidableEq

/-- The fetch handler of the static worker template (src/workers/template.ts
lines 16-90).  KV is modelled by the index pairs and a configs lookup
(test:{id} records); the GA4 view event is fire-and-forget and does not
affect the result, so it is not modelled.  Missing index and missing config
both return 404 in the source; an existing cookie assignment short-circuits
selection; a fresh user is assigned via selectBucket and gets exactly one
Set-Cookie header with the cookieValue shape, then a 302 redirect. -/
def workerFetch (index : List (String × IndexEntry))
    (configs : String → Option TestConfig) (path cookie : String) (u : ℚ)
    (sampler : ℕ → ℤ → ℤ → ℚ) (stats : Stats) : HandlerResult :=
  match findTestEntry index path with
  | none => ⟨404, none, none, none⟩
  | some entry =>
    match configs entry.id with
    | none => ⟨404, none, none, none⟩
    | some cfg =>
      match getBucket cookie cfg.id with
      | some b => ⟨302, some b, none, some (getTargetUrl b cfg)⟩
      | none =>
        let bucket := selectBucket cfg stats u sampler
        ⟨302, some bucket, some (cookieValue cfg.id bucket),
          some (getTargetUrl bucket cfg)⟩

/-- normalSample (src/workers/template.ts lines 149-153): the Box-Muller
transform sqrt(-2 ln u1) * cos(2 pi u2) on two consecutive uniform draws.
The draws are rationals (IEEE doubles are rational); the result is a real,
with none standing for the non-finite IEEE value the expression produces
when u1 = 0 (Math.log(0) is -Infinity).  There is no branch in the source:
it consumes its two draws unconditionally. -/
noncomputable def normalSample (u1 u2 : ℚ) : Option ℝ :=
  if 0 < u1 then
    some (Real.sqrt (-2 * Real.log (u1 : ℝ)) * Real.cos (2 * Real.pi * (u2 : ℝ)))
  else none

/-- normalSample threaded through an explicit draw sequence: reads the draws
at positions i and i+1 and returns the index of the next unread draw.  The
returned index is i + 2 for every input, reflecting that the source consumes
exactly two uniform draws and never resamples. -/
noncomputable def normalSampleS (s : ℕ → ℚ) (i : ℕ) : Option ℝ × ℕ :=
  (normalSample (s i) (s (i + 1)), i + 2)

/-- betaSample (src/workers/template.ts lines 158-162), parameterised by the
gamma sampler it calls: x = gammaDraw(alpha, 1), y = gammaDraw(beta, 1),
result x / (x + y).  The parameters are passed to the gamma sampler exactly
as received — the source applies no transformation to them. -/
def betaSample (gammaDraw : ℚ → ℚ → ℚ) (alpha beta : ℚ) : ℚ :=
  let x := gammaDraw alpha 1
  let y := gammaDraw beta 1
  x / (x + y)

/-- The variant of betaSample the design document describes for degenerate
parameters: both parameters clamped to a minimum of 1e-6 before the gamma
draws.  Stated from the words of the specification, for comparison with
betaSample as implemented. -/
def betaSampleClamped (gammaDraw : ℚ → ℚ → ℚ) (alpha beta : ℚ) : ℚ :=
  let a := max alpha (1 / 1000000)
  let b := max beta (1 / 1000000)
  let x := gammaDraw a 1
  let y := gammaDraw b 1
  x / (x + y)

/-- Bucket key at a position of the key list, with the initial value in the source of
best value "control" as the out-of-range default. -/
def keyAt (keys : List String) (j : ℕ) : String :=
  keys.getD j "control"

/-- The beta sample drawn at position j of the Thompson Sampling loop when
the loop starts at oracle index i: the oracle applied to the iteration index
i + j and the alpha and beta parameters of the j-th bucket key. -/
def sampleAt (sampler : ℕ → ℤ → ℤ → ℚ) (stats : Stats) (keys : List String)
    (i j : ℕ) : ℚ :=
  sampler (i + j) (bucketAlpha stats (keyAt keys j)) (bucketBeta stats (keyAt keys j))

/-- Cumulative weight threshold after k variants: controlPercentage plus the
sum of the first k variant percentages. -/
def cumThreshold (cfg : TestConfig) (k : ℕ) : ℚ :=
  cfg.controlPercentage + ((cfg.variants.take k).map (fun v => v.percentage)).sum

/-- C4: the specification demands that the Box-Muller draw u1 exclude 0,
resampling when the uniform source returns exactly 0, so that ln(0) is never
evaluated and the result is finite.  The source has no such guard: on a draw
sequence whose first draw is 0 the sampler consumes exactly its two draws
(the next unread index is 2 — no resample) and evaluates log at 0, producing
a non-finite value (modelled by none). -/
theorem normalSample_zero_no_resample :
    normalSampleS (fun n => if n = 0 then 0 else 1 / 2) 0 = (none, 2) := by
  simp [normalSampleS, normalSample]

/-- C5 counterexample: betaSample does not clamp its parameters.  With the
gamma sampler instantiated to an oracle that reports the shape it receives,
betaSample at (alpha, beta) = (0, 1) — the degenerate case the claim is
about — differs from the clamped variant the specification describes, so no
clamping to 1e-6 is performed. -/
theorem betaSample_not_clamped :
    betaSample (fun shape _ => shape) 0 1 ≠
      betaSampleClamped (fun shape _ => shape) 0 1 := by
  have h1 : max (0 : ℚ) (1 / 1000000) = 1 / 1000000 := max_eq_right (by norm_num)
  have h2 : max (1 : ℚ) (1 / 1000000) = 1 := max_eq_left (by norm_num)
  simp only [betaSample, betaSampleClamped, h1, h2]
  norm_num

/-- C5 amended: betaSample passes alpha and beta to the gamma sampler
unchanged (no clamping of any kind) and returns x / (x + y) for the two
gamma draws; the denominator of the division is nonzero whenever the draw for
alpha is positive and the draw for beta is nonnegative. -/
theorem betaSample_params_unclamped (g : ℚ → ℚ → ℚ) (alpha beta : ℚ)
    (hx : 0 < g alpha 1) (hy : 0 ≤ g beta 1) :
    betaSample g alpha beta = g alpha 1 / (g alpha 1 + g beta 1) ∧
      g alpha 1 + g beta 1 ≠ 0 :=
  ⟨rfl, (by linarith : (0 : ℚ) < g alpha 1 + g beta 1).ne'⟩

/-- Witness for the amended C5 theorem at the concrete oracle that returns
its shape argument and parameters (2, 3). -/
theorem betaSample_params_unclamped_witness :
    betaSample (fun s _ => s) 2 3 = 2 / (2 + 3) ∧ (2 : ℚ) + 3 ≠ 0 :=
  betaSample_params_unclamped (fun s _ => s) 2 3 (by norm_num) (by norm_num)

/-- C10: cookie lookup is not anchored at a cookie-name boundary.  The
header "spring-sale=variant2" holds no cookie named sale, yet lookup for
testId sale returns variant2, because the regex matches the substring
sale= inside spring-sale=.  The further conjuncts show the captured value
stops at the next semicolon and that the first occurrence in the header
wins. -/
theorem getBucket_matches_substring :
    getBucket "spring-sale=variant2" "sale" = some "variant2" ∧
      getBucket "xsale=abc; other=1" "sale" = some "abc" ∧
      getBucket "sale=a; sale=b" "sale" = some "a" := by
  decide

/-- C7 counterexample: test resolution does not pick the longest entry-path
match.  With an index holding "/a" before "/ab", the path "/abc" resolves to
the "/a" test although "/ab" is a strictly longer matching entry path. -/
theorem findTestEntry_not_longest_match :
    findTestEntry [("/a", ⟨"t1", "/a"⟩), ("/ab", ⟨"t2", "/ab"⟩)] "/abc" =
        some ⟨"t1", "/a"⟩ ∧
      strStartsWith "/abc" "/ab" = true ∧
      "/a".length < "/ab".length := by
  decide

/-- C1 amended: in the worker code emitted by generateWorkerCode, for an
adaptive test (autoOptimize true), selection falls back to static weighted
selection whenever the total views over all bucket keys are below
bucketCount * 100, and takes the Thompson Sampling branch exactly when the
total reaches that floor. -/
theorem selectBucketGen_exploration_floor (cfg : TestConfig) (stats : Stats)
    (u : ℚ) (sampler : ℕ → ℤ → ℤ → ℚ) (hA : cfg.autoOptimize = true) :
    (totalViewsOf stats (workerVariantKeys cfg) <
        ((workerVariantKeys cfg).length : ℤ) * 100 →
      selectBucketGen cfg stats u sampler = assignBucket u cfg) ∧
      (((workerVariantKeys cfg).length : ℤ) * 100 ≤
          totalViewsOf stats (workerVariantKeys cfg) →
        selectBucketGen cfg stats u sampler =
          chooseBucketTS sampler stats (workerVariantKeys cfg)) := by
  constructor
  · intro h
    simp only [selectBucketGen, hA, if_true]
    rw [if_neg (not_le.mpr h)]
  · intro h
    simp only [selectBucketGen, hA, if_true]
    rw [if_pos h]

/-- Witness for the C1 amended theorem: an adaptive one-variant test with
all-zero stats (total views 0, floor 200) selects via the static fallback. -/
theorem selectBucketGen_exploration_floor_witness :
    selectBucketGen ⟨"t", "/t", "cu", 100, [⟨"variant1", 0, "vu"⟩], true⟩
        ⟨fun _ => 0, fun _ => 0⟩ (1 / 2) (fun i _ _ => if i = 1 then 1 else 0) =
      assignBucket (1 / 2) ⟨"t", "/t", "cu", 100, [⟨"variant1", 0, "vu"⟩], true⟩ :=
  (selectBucketGen_exploration_floor ⟨"t", "/t", "cu", 100, [⟨"variant1", 0, "vu"⟩], true⟩
      ⟨fun _ => 0, fun _ => 0⟩ (1 / 2) (fun i _ _ => if i = 1 then 1 else 0) rfl).1
    (by decide)

/-- C1 counterexample: the static worker template (src/workers/template.ts)
has no exploration floor.  On an adaptive one-variant test with all-zero
stats — total views 0, strictly below bucketCount * 100 = 200 — its
selection takes the Thompson Sampling branch and returns "variant1" under a
sampler favouring the variant, while the static weighted selection the claim
requires would return "control" (control weight 100). -/
theorem template_no_exploration_floor :
    totalViewsOf ⟨fun _ => 0, fun _ => 0⟩
        (workerVariantKeys ⟨"t", "/t", "cu", 100, [⟨"variant1", 0, "vu"⟩], true⟩) <
      ((workerVariantKeys ⟨"t", "/t", "cu", 100, [⟨"variant1", 0, "vu"⟩], true⟩).length : ℤ) * 100 ∧
    selectBucket ⟨"t", "/t", "cu", 100, [⟨"variant1", 0, "vu"⟩], true⟩
        ⟨fun _ => 0, fun _ => 0⟩ (1 / 2) (fun i _ _ => if i = 1 then 1 else 0) = "variant1" ∧
    assignBucket (1 / 2) ⟨"t", "/t", "cu", 100, [⟨"variant1", 0, "vu"⟩], true⟩ = "control" := by
  refine ⟨by decide, ?_, ?_⟩
  · norm_num [selectBucket, workerVariantKeys, chooseBucketTS, tsLoop,
      bucketAlpha, bucketBeta]
  · norm_num [assignBucket]

/-- C3: when the Cookie header already holds an assignment for the test, the
handler redirects to that bucket: the result carries the bucket named in the cookie,
sets no new cookie (no re-binding) and never consults the selector — shown
by running the handler twice with unrelated draw sources, samplers, stats
and even a different stored config with the same test id (so adaptiveMode
and weights may differ): both runs resolve to the bucket named in the cookie. -/
theorem cookie_honored_before_selection (index : List (String × IndexEntry))
    (configs₁ configs₂ : String → Option TestConfig) (path cookie : String)
    (u₁ u₂ : ℚ) (s₁ s₂ : ℕ → ℤ → ℤ → ℚ) (st₁ st₂ : Stats)
    (entry : IndexEntry) (cfg₁ cfg₂ : TestConfig) (b : String)
    (hentry : findTestEntry index path = some entry)
    (hc₁ : configs₁ entry.id = some cfg₁)
    (hc₂ : configs₂ entry.id = some cfg₂)
    (hid : cfg₂.id = cfg₁.id)
    (hcookie : getBucket cookie cfg₁.id = some b) :
    workerFetch index configs₁ path cookie u₁ s₁ st₁ =
        ⟨302, some b, none, some (getTargetUrl b cfg₁)⟩ ∧
      workerFetch index configs₂ path cookie u₂ s₂ st₂ =
        ⟨302, some b, none, some (getTargetUrl b cfg₂)⟩ := by
  constructor
  · simp [workerFetch, hentry, hc₁, hcookie]
  · simp [workerFetch, hentry, hc₂, hid, hcookie]

/-- Witness for C3: a request carrying cookie t=variant1 resolves to
variant1 under an adaptive config and under a static config with different
weights alike, with no Set-Cookie emitted. -/
theorem cookie_honored_before_selection_witness :
    workerFetch [("/t", ⟨"t", "/t"⟩)]
        (fun _ => some ⟨"t", "/t", "cu", 100, [⟨"variant1", 0, "vu"⟩], true⟩)
        "/t" "t=variant1" (1 / 2) (fun _ _ _ => 1) ⟨fun _ => 9, fun _ => 9⟩ =
        ⟨302, some "variant1", none,
          some (getTargetUrl "variant1" ⟨"t", "/t", "cu", 100, [⟨"variant1", 0, "vu"⟩], true⟩)⟩ ∧
      workerFetch [("/t", ⟨"t", "/t"⟩)]
        (fun _ => some ⟨"t", "/t", "cu", 50, [⟨"variant1", 50, "vu"⟩], false⟩)
        "/t" "t=variant1" (3 / 4) (fun _ _ _ => 0) ⟨fun _ => 0, fun _ => 0⟩ =
        ⟨302, some "variant1", none,
          some (getTargetUrl "variant1" ⟨"t", "/t", "cu", 50, [⟨"variant1", 50, "vu"⟩], false⟩)⟩ :=
  cookie_honored_before_selection [("/t", ⟨"t", "/t"⟩)]
    (fun _ => some ⟨"t", "/t", "cu", 100, [⟨"variant1", 0, "vu"⟩], true⟩)
    (fun _ => some ⟨"t", "/t", "cu", 50, [⟨"variant1", 50, "vu"⟩], false⟩)
    "/t" "t=variant1" (1 / 2) (3 / 4) (fun _ _ _ => 1) (fun _ _ _ => 0)
    ⟨fun _ => 9, fun _ => 9⟩ ⟨fun _ => 0, fun _ => 0⟩
    ⟨"t", "/t"⟩ ⟨"t", "/t", "cu", 100, [⟨"variant1", 0, "vu"⟩], true⟩
    ⟨"t", "/t", "cu", 50, [⟨"variant1", 50, "vu"⟩], false⟩ "variant1"
    (by decide) rfl rfl rfl (by decide)

/-- C9: on a fresh assignment (no cookie match) the handler emits exactly
one Set-Cookie header whose serialised value is exactly
{testId}={bucketId}; Path=/; Max-Age=2592000; HttpOnly; Secure; SameSite=Lax
for the selected bucket, together with the 302 redirect to that bucket. -/
theorem fresh_assignment_sets_exact_cookie (index : List (String × IndexEntry))
    (configs : String → Option TestConfig) (path cookie : String) (u : ℚ)
    (sampler : ℕ → ℤ → ℤ → ℚ) (stats : Stats) (entry : IndexEntry)
    (cfg : TestConfig)
    (hentry : findTestEntry index path = some entry)
    (hcfg : configs entry.id = some cfg)
    (hmiss : getBucket cookie cfg.id = none) :
    workerFetch index configs path cookie u sampler stats =
      ⟨302, some (selectBucket cfg stats u sampler),
        some (cfg.id ++ "=" ++ selectBucket cfg stats u sampler ++
          "; Path=/; Max-Age=2592000; HttpOnly; Secure; SameSite=Lax"),
        some (getTargetUrl (selectBucket cfg stats u sampler) cfg)⟩ := by
  simp [workerFetch, hentry, hcfg, hmiss, cookieValue]

/-- Witness for C9: a cookie-less request on a static 100-percent-control
test gets Set-Cookie t=control with the exact serialised shape. -/
theorem fresh_assignment_sets_exact_cookie_witness :
    workerFetch [("/t", ⟨"t", "/t"⟩)]
        (fun _ => some ⟨"t", "/t", "cu", 100, [⟨"variant1", 0, "vu"⟩], false⟩)
        "/t" "" (1 / 2) (fun _ _ _ => 0) ⟨fun _ => 0, fun _ => 0⟩ =
      ⟨302,
        some (selectBucket ⟨"t", "/t", "cu", 100, [⟨"variant1", 0, "vu"⟩], false⟩
          ⟨fun _ => 0, fun _ => 0⟩ (1 / 2) (fun _ _ _ => 0)),
        some ("t" ++ "=" ++
          selectBucket ⟨"t", "/t", "cu", 100, [⟨"variant1", 0, "vu"⟩], false⟩
            ⟨fun _ => 0, fun _ => 0⟩ (1 / 2) (fun _ _ _ => 0) ++
          "; Path=/; Max-Age=2592000; HttpOnly; Secure; SameSite=Lax"),
        some (getTargetUrl
          (selectBucket ⟨"t", "/t", "cu", 100, [⟨"variant1", 0, "vu"⟩], false⟩
            ⟨fun _ => 0, fun _ => 0⟩ (1 / 2) (fun _ _ _ => 0))
          ⟨"t", "/t", "cu", 100, [⟨"variant1", 0, "vu"⟩], false⟩)⟩ :=
  fresh_assignment_sets_exact_cookie [("/t", ⟨"t", "/t"⟩)]
    (fun _ => some ⟨"t", "/t", "cu", 100, [⟨"variant1", 0, "vu"⟩], false⟩)
    "/t" "" (1 / 2) (fun _ _ _ => 0) ⟨fun _ => 0, fun _ => 0⟩
    ⟨"t", "/t"⟩ ⟨"t", "/t", "cu", 100, [⟨"variant1", 0, "vu"⟩], false⟩
    (by decide) rfl (by decide)

/-- The Thompson Sampling loop only ever returns its incoming best value or
one of the keys it walks. -/
theorem tsLoop_mem (sampler : ℕ → ℤ → ℤ → ℚ) (stats : Stats) :
    ∀ (keys : List String) (i : ℕ) (best : String) (bs : ℚ),
      tsLoop sampler stats keys i best bs ∈ best :: keys := by
  intro keys
  induction keys with
  | nil =>
    intro i best bs
    simp [tsLoop]
  | cons k rest ih =>
    intro i best bs
    simp only [tsLoop]
    split
    · exact List.mem_cons_of_mem best (ih (i + 1) k _)
    · rcases List.mem_cons.mp (ih (i + 1) best bs) with h | h
      · exact List.mem_cons.mpr (Or.inl h)
      · exact List.mem_cons.mpr (Or.inr (List.mem_cons_of_mem k h))

/-- The static walk only ever returns "control" or the id of one of the
variants it walks. -/
theorem assignLoop_mem (roll : ℚ) :
    ∀ (vs : List Variant) (cum : ℚ),
      assignLoop roll cum vs ∈ "control" :: vs.map (fun v => v.id) := by
  intro vs
  induction vs with
  | nil =>
    intro cum
    simp [assignLoop]
  | cons v rest ih =>
    intro cum
    simp only [assignLoop, List.map_cons]
    split
    · exact List.mem_cons.mpr (Or.inr (List.mem_cons_self _ _))
    · rcases List.mem_cons.mp (ih (cum + v.percentage)) with h | h
      · exact List.mem_cons.mpr (Or.inl h)
      · exact List.mem_cons.mpr (Or.inr (List.mem_cons_of_mem _ h))

/-- C6: for every test definition and every stats mapping — including
malformed stats, since the stats functions are arbitrary and may have
conversions exceeding views — the static path, the Thompson Sampling path
over the key list the worker builds, and the composed selection all return a bucket
id from the known set "control" plus the variant ids of the test.  All three are
total Lean functions, so they terminate and raise nothing. -/
theorem selection_returns_known_bucket (cfg : TestConfig) (stats : Stats)
    (u : ℚ) (sampler : ℕ → ℤ → ℤ → ℚ) :
    assignBucket u cfg ∈ "control" :: cfg.variants.map (fun v => v.id) ∧
      chooseBucketTS sampler stats (workerVariantKeys cfg) ∈
        "control" :: cfg.variants.map (fun v => v.id) ∧
      selectBucket cfg stats u sampler ∈
        "control" :: cfg.variants.map (fun v => v.id) := by
  have h1 : assignBucket u cfg ∈ "control" :: cfg.variants.map (fun v => v.id) := by
    show (if u * 100 < cfg.controlPercentage then "control"
        else assignLoop (u * 100) cfg.controlPercentage cfg.variants) ∈
      "control" :: cfg.variants.map (fun v => v.id)
    split
    · exact List.mem_cons_self _ _
    · exact assignLoop_mem _ _ _
  have h2 : chooseBucketTS sampler stats (workerVariantKeys cfg) ∈
      "control" :: cfg.variants.map (fun v => v.id) := by
    rcases List.mem_cons.mp
        (tsLoop_mem sampler stats (workerVariantKeys cfg) 0 "control" (-1)) with h | h
    · exact List.mem_cons.mpr (Or.inl h)
    · exact h
  refine ⟨h1, h2, ?_⟩
  unfold selectBucket
  split
  · exact h2
  · exact h1

/-- Unfolding of sampleAt at position 0 of a nonempty key list. -/
theorem sampleAt_zero (sampler : ℕ → ℤ → ℤ → ℚ) (stats : Stats) (k : String)
    (rest : List String) (i : ℕ) :
    sampleAt sampler stats (k :: rest) i 0 =
      sampler i (bucketAlpha stats k) (bucketBeta stats k) := by
  simp [sampleAt, keyAt]

/-- Shifting sampleAt past the head of the key list advances the oracle
index by one. -/
theorem sampleAt_succ (sampler : ℕ → ℤ → ℤ → ℚ) (stats : Stats) (k : String)
    (rest : List String) (i j : ℕ) :
    sampleAt sampler stats (k :: rest) i (j + 1) =
      sampleAt sampler stats rest (i + 1) j := by
  have h : i + (j + 1) = i + 1 + j := by omega
  simp [sampleAt, keyAt, h]

/-- Characterisation of the Thompson Sampling loop as a running maximum:
either no sample beats the incoming best score and the incoming best value
is returned, or the loop returns the key at the first position whose sample
attains the overall maximum and strictly exceeds the incoming score. -/
theorem tsLoop_char (sampler : ℕ → ℤ → ℤ → ℚ) (stats : Stats) :
    ∀ (keys : List String) (i : ℕ) (best : String) (bs : ℚ),
      (tsLoop sampler stats keys i best bs = best ∧
          ∀ j < keys.length, sampleAt sampler stats keys i j ≤ bs) ∨
        ∃ j < keys.length,
          tsLoop sampler stats keys i best bs = keyAt keys j ∧
            bs < sampleAt sampler stats keys i j ∧
            (∀ m < keys.length,
              sampleAt sampler stats keys i m ≤ sampleAt sampler stats keys i j) ∧
            ∀ m < j, sampleAt sampler stats keys i m < sampleAt sampler stats keys i j := by
  intro keys
  induction keys with
  | nil =>
    intro i best bs
    left
    refine ⟨by simp [tsLoop], ?_⟩
    intro j hj
    simp at hj
  | cons k rest ih =>
    intro i best bs
    by_cases hs : bs < sampler i (bucketAlpha stats k) (bucketBeta stats k)
    · have heq : tsLoop sampler stats (k :: rest) i best bs =
          tsLoop sampler stats rest (i + 1) k
            (sampler i (bucketAlpha stats k) (bucketBeta stats k)) := by
        simp only [tsLoop]
        rw [if_pos hs]
      rcases ih (i + 1) k (sampler i (bucketAlpha stats k) (bucketBeta stats k)) with
        ⟨hres, hall⟩ | ⟨j, hj, hres, hgt, hmax, hstrict⟩
      · right
        refine ⟨0, by simp, ?_, ?_, ?_, ?_⟩
        · rw [heq, hres]
          simp [keyAt]
        · rw [sampleAt_zero]
          exact hs
        · intro m hm
          cases m with
          | zero => exact le_refl _
          | succ m' =>
            rw [sampleAt_succ, sampleAt_zero]
            exact hall m' (by simp only [List.length_cons] at hm; omega)
        · intro m hm
          exact absurd hm (Nat.not_lt_zero m)
      · right
        refine ⟨j + 1, by simp only [List.length_cons]; omega, ?_, ?_, ?_, ?_⟩
        · rw [heq, hres]
          simp [keyAt]
        · rw [sampleAt_succ]
          exact lt_trans hs hgt
        · intro m hm
          cases m with
          | zero =>
            rw [sampleAt_zero, sampleAt_succ]
            exact le_of_lt hgt
          | succ m' =>
            rw [sampleAt_succ, sampleAt_succ]
            exact hmax m' (by simp only [List.length_cons] at hm; omega)
        · intro m hm
          cases m with
          | zero =>
            rw [sampleAt_zero, sampleAt_succ]
            exact hgt
          | succ m' =>
            rw [sampleAt_succ, sampleAt_succ]
            exact hstrict m' (by omega)
    · have heq : tsLoop sampler stats (k :: rest) i best bs =
          tsLoop sampler stats rest (i + 1) best bs := by
        simp only [tsLoop]
        rw [if_neg hs]
      rcases ih (i + 1) best bs with ⟨hres, hall⟩ | ⟨j, hj, hres, hgt, hmax, hstrict⟩
      · left
        refine ⟨by rw [heq, hres], ?_⟩
        intro m hm
        cases m with
        | zero =>
          rw [sampleAt_zero]
          exact not_lt.mp hs
        | succ m' =>
          rw [sampleAt_succ]
          exact hall m' (by simp only [List.length_cons] at hm; omega)
      · right
        refine ⟨j + 1, by simp only [List.length_cons]; omega, ?_, ?_, ?_, ?_⟩
        · rw [heq, hres]
          simp [keyAt]
        · rw [sampleAt_succ]
          exact hgt
        · intro m hm
          cases m with
          | zero =>
            rw [sampleAt_zero, sampleAt_succ]
            exact le_trans (not_lt.mp hs) (le_of_lt hgt)
          | succ m' =>
            rw [sampleAt_succ, sampleAt_succ]
            exact hmax m' (by simp only [List.length_cons] at hm; omega)
        · intro m hm
          cases m with
          | zero =>
            rw [sampleAt_zero, sampleAt_succ]
            exact lt_of_le_of_lt (not_lt.mp hs) hgt
          | succ m' =>
            rw [sampleAt_succ, sampleAt_succ]
            exact hstrict m' (by omega)

/-- C2: with the key list the worker builds — "control" first, then the variants in
definition order — and one beta sample per key with parameters
alpha = conversions + 1 and beta = (views - conversions) + 1 (the
definitions bucketAlpha and bucketBeta inside sampleAt), chooseBucketTS
returns the key at the first position attaining the strictly greatest
sample: its sample dominates every sample and strictly exceeds every
earlier one.  The hypothesis that samples are nonnegative holds for every
genuine beta draw, which lies in the unit interval. -/
theorem chooseBucketTS_picks_first_argmax (sampler : ℕ → ℤ → ℤ → ℚ)
    (stats : Stats) (cfg : TestConfig)
    (hpos : ∀ j < (workerVariantKeys cfg).length,
      0 ≤ sampleAt sampler stats (workerVariantKeys cfg) 0 j) :
    ∃ j < (workerVariantKeys cfg).length,
      chooseBucketTS sampler stats (workerVariantKeys cfg) =
          keyAt (workerVariantKeys cfg) j ∧
        (∀ m < (workerVariantKeys cfg).length,
          sampleAt sampler stats (workerVariantKeys cfg) 0 m ≤
            sampleAt sampler stats (workerVariantKeys cfg) 0 j) ∧
        ∀ m < j,
          sampleAt sampler stats (workerVariantKeys cfg) 0 m <
            sampleAt sampler stats (workerVariantKeys cfg) 0 j := by
  rcases tsLoop_char sampler stats (workerVariantKeys cfg) 0 "control" (-1) with
    ⟨_, hall⟩ | ⟨j, hj, hres, _, hmax, hstrict⟩
  · exfalso
    have h0 : (0 : ℕ) < (workerVariantKeys cfg).length := by
      simp [workerVariantKeys]
    have h1 := hall 0 h0
    have h2 := hpos 0 h0
    linarith
  · exact ⟨j, hj, hres, hmax, hstrict⟩

/-- Witness for C2: keys ["control", "variant1"] with samples 1/2 and 3/4;
the first (and only) argmax position is 1, so the loop returns variant1. -/
theorem chooseBucketTS_picks_first_argmax_witness :
    chooseBucketTS (fun i _ _ => if i = 1 then (3 : ℚ) / 4 else 1 / 2)
        ⟨fun _ => 0, fun _ => 0⟩
        (workerVariantKeys ⟨"t", "/t", "cu", 50, [⟨"variant1", 50, "vu"⟩], true⟩) =
      "variant1" := by
  obtain ⟨j, hj, hres, hmax, hstrict⟩ :=
    chooseBucketTS_picks_first_argmax (fun i _ _ => if i = 1 then (3 : ℚ) / 4 else 1 / 2)
      ⟨fun _ => 0, fun _ => 0⟩ ⟨"t", "/t", "cu", 50, [⟨"variant1", 50, "vu"⟩], true⟩
      (by
        intro m hm
        simp only [workerVariantKeys, List.map_cons, List.map_nil, List.length_cons,
          List.length_nil] at hm
        interval_cases m <;>
          norm_num [sampleAt, keyAt, workerVariantKeys, bucketAlpha, bucketBeta])
  simp only [workerVariantKeys, List.map_cons, List.map_nil, List.length_cons,
    List.length_nil] at hj
  interval_cases j
  · exfalso
    have h := hmax 1 (by simp [workerVariantKeys])
    norm_num [sampleAt, keyAt, workerVariantKeys, bucketAlpha, bucketBeta] at h
  · rw [hres]
    simp [keyAt, workerVariantKeys]

/-- The static walk returns the id of the variant at the first position
whose cumulative threshold exceeds the roll, when no earlier threshold
does. -/
theorem assignLoop_first_hit (roll : ℚ) :
    ∀ (vs : List Variant) (cum : ℚ) (j : ℕ),
      j < vs.length →
      roll < cum + ((vs.take (j + 1)).map (fun v => v.percentage)).sum →
      (∀ m < j, ¬ roll < cum + ((vs.take (m + 1)).map (fun v => v.percentage)).sum) →
      assignLoop roll cum vs = (vs.map (fun v => v.id)).getD j "control" := by
  intro vs
  induction vs with
  | nil =>
    intro cum j hj hhit hmiss
    simp at hj
  | cons v rest ih =>
    intro cum j hj hhit hmiss
    simp only [List.take_succ_cons, List.map_cons, List.sum_cons] at hhit hmiss
    cases j with
    | zero =>
      have h0 : roll < cum + v.percentage := by
        simp only [List.take_zero, List.map_nil, List.sum_nil, add_zero] at hhit
        exact hhit
      simp only [assignLoop]
      rw [if_pos h0]
      simp
    | succ j' =>
      have h0 : ¬ roll < cum + v.percentage := by
        have hm := hmiss 0 (Nat.succ_pos j')
        simp only [List.take_zero, List.map_nil, List.sum_nil, add_zero] at hm
        exact hm
      simp only [assignLoop]
      rw [if_neg h0]
      have hres := ih (cum + v.percentage) j'
        (by simp only [List.length_cons] at hj; omega)
        (by linarith)
        (by
          intro m hm
          have h2 := hmiss (m + 1) (by omega)
          intro hcon
          exact h2 (by linarith))
      rw [hres]
      simp

/-- When no cumulative threshold exceeds the roll, the static walk falls
through to "control". -/
theorem assignLoop_all_miss (roll : ℚ) :
    ∀ (vs : List Variant) (cum : ℚ),
      (∀ j < vs.length,
        ¬ roll < cum + ((vs.take (j + 1)).map (fun v => v.percentage)).sum) →
      assignLoop roll cum vs = "control" := by
  intro vs
  induction vs with
  | nil =>
    intro cum h
    simp [assignLoop]
  | cons v rest ih =>
    intro cum h
    simp only [List.take_succ_cons, List.map_cons, List.sum_cons] at h
    have h0 : ¬ roll < cum + v.percentage := by
      have hm := h 0 (Nat.succ_pos rest.length)
      simp only [List.take_zero, List.map_nil, List.sum_nil, add_zero] at hm
      exact hm
    simp only [assignLoop]
    rw [if_neg h0]
    apply ih (cum + v.percentage)
    intro m hm
    have h2 := h (m + 1) (by simp only [List.length_cons]; omega)
    intro hcon
    exact h2 (by linarith)

/-- C8: for a non-adaptive test (autoOptimize false) selection draws
roll = u * 100 and (first conjunct) returns "control" when the roll is
below the control weight, (second conjunct) otherwise returns the id of
the first variant in definition order whose cumulative threshold exceeds
the roll, and (third conjunct) falls back to "control" when no cumulative
threshold is ever exceeded. -/
theorem static_selection (cfg : TestConfig) (stats : Stats) (u : ℚ)
    (sampler : ℕ → ℤ → ℤ → ℚ) (hA : cfg.autoOptimize = false) :
    (u * 100 < cfg.controlPercentage →
        selectBucket cfg stats u sampler = "control") ∧
      (∀ j < cfg.variants.length,
        ¬ u * 100 < cfg.controlPercentage →
        u * 100 < cumThreshold cfg (j + 1) →
        (∀ m < j, ¬ u * 100 < cumThreshold cfg (m + 1)) →
        selectBucket cfg stats u sampler =
          (cfg.variants.map (fun v => v.id)).getD j "control") ∧
      (¬ u * 100 < cfg.controlPercentage →
        (∀ j < cfg.variants.length, ¬ u * 100 < cumThreshold cfg (j + 1)) →
        selectBucket cfg stats u sampler = "control") := by
  have hsel : selectBucket cfg stats u sampler = assignBucket u cfg := by
    simp [selectBucket, hA]
  have hab : assignBucket u cfg =
      if u * 100 < cfg.controlPercentage then "control"
      else assignLoop (u * 100) cfg.controlPercentage cfg.variants := rfl
  refine ⟨?_, ?_, ?_⟩
  · intro h
    rw [hsel, hab, if_pos h]
  · intro j hj hc hhit hmiss
    unfold cumThreshold at hhit hmiss
    rw [hsel, hab, if_neg hc]
    exact assignLoop_first_hit (u * 100) cfg.variants cfg.controlPercentage j hj hhit hmiss
  · intro hc hmiss
    unfold cumThreshold at hmiss
    rw [hsel, hab, if_neg hc]
    exact assignLoop_all_miss (u * 100) cfg.variants cfg.controlPercentage hmiss

/-- Witness for C8: control weight 50, one variant of weight 50, roll 75:
the first cumulative threshold (100) exceeds the roll, so the variant is
returned. -/
theorem static_selection_witness :
    selectBucket ⟨"t", "/t", "cu", 50, [⟨"variant1", 50, "vu"⟩], false⟩
        ⟨fun _ => 0, fun _ => 0⟩ (3 / 4) (fun _ _ _ => 0) = "variant1" := by
  have h := (static_selection ⟨"t", "/t", "cu", 50, [⟨"variant1", 50, "vu"⟩], false⟩
      ⟨fun _ => 0, fun _ => 0⟩ (3 / 4) (fun _ _ _ => 0) rfl).2.1
  have h2 := h 0 (by simp) (by norm_num) (by norm_num [cumThreshold])
    (fun m hm => absurd hm (Nat.not_lt_zero m))
  simpa using h2

/-- A character list is a prefix of itself under the boolean prefix test. -/
theorem isPrefixOf_self (l : List Char) : l.isPrefixOf l = true := by
  induction l with
  | nil => rfl
  | cons c cs ih => simp [List.isPrefixOf, ih]

/-- C7 amended: the handler resolves a test by exact index-key match first
and otherwise takes the first entry, in index order, whose entryPath is a
prefix of the path — not the longest such prefix; and when no key matches
exactly and no entryPath is a prefix of the path (the index keys being the
entry paths, as the tests_index is built), the request ends with HTTP 404,
no bucket and no Set-Cookie. -/
theorem path_resolution_spec (index : List (String × IndexEntry))
    (configs : String → Option TestConfig) (path cookie : String) (u : ℚ)
    (sampler : ℕ → ℤ → ℤ → ℚ) (stats : Stats)
    (hkeys : ∀ p ∈ index, (p : String × IndexEntry).1 = p.2.entryPath) :
    ((∀ p ∈ index, strStartsWith path (p : String × IndexEntry).2.entryPath = false) →
        workerFetch index configs path cookie u sampler stats = ⟨404, none, none, none⟩) ∧
      (index.find? (fun p => p.1 == path) = none →
        findTestEntry index path =
          (index.map Prod.snd).find? (fun e => strStartsWith path e.entryPath)) ∧
      ∀ q, index.find? (fun p => p.1 == path) = some q →
        findTestEntry index path = some q.2 := by
  refine ⟨?_, ?_, ?_⟩
  · intro hnone
    have hexact : index.find? (fun p => p.1 == path) = none := by
      rw [List.find?_eq_none]
      intro p hp hbeq
      have h1 : p.1 = path := by simpa using hbeq
      have h2 : strStartsWith path p.2.entryPath = true := by
        rw [← hkeys p hp, h1]
        simp [strStartsWith, isPrefixOf_self path.data]
      rw [hnone p hp] at h2
      simp at h2
    have hmap : (index.map Prod.snd).find?
        (fun e => strStartsWith path e.entryPath) = none := by
      rw [List.find?_eq_none]
      intro e he hbeq
      rw [List.mem_map] at he
      obtain ⟨p, hp, rfl⟩ := he
      rw [hnone p hp] at hbeq
      simp at hbeq
    simp [workerFetch, findTestEntry, hexact, hmap]
  · intro h
    simp [findTestEntry, h]
  · intro q hq
    simp [findTestEntry, hq]

/-- Witness for the amended C7 theorem: a one-test index for "/a" and the
unmatched path "/zz" produce the 404 result with no cookie. -/
theorem path_resolution_spec_witness :
    workerFetch [("/a", ⟨"t1", "/a"⟩)] (fun _ => none) "/zz" "" (1 / 2)
        (fun _ _ _ => 0) ⟨fun _ => 0, fun _ => 0⟩ = ⟨404, none, none, none⟩ :=
  (path_resolution_spec [("/a", ⟨"t1", "/a"⟩)] (fun _ => none) "/zz" "" (1 / 2)
      (fun _ _ _ => 0) ⟨fun _ => 0, fun _ => 0⟩ (by decide)).1 (by decide)

end EdgeSplit
